import Mathlib

/-!
Verification development for the sysdig-go client library.

The definitions below are a shallow embedding of the request/response
transport pipeline of the `sysdig` package (client.go: `NewRequest`,
`bareDo`, `Do`, `CheckResponse`, `isAuthenticationError`, `gzipped`) and
of the IBM IAM authenticator (`ibmiam/iam.go`: `Authenticator`,
`Authenticate`, `WithRefreshBeforeDuration`).

Collaborators from the Go standard library and the network are made
explicit parameters:
 * the HTTP round trip (`http.Client.Do`) is an attempt-indexed oracle
   `dispatch : Nat -> Except String Response`;
 * `encoding/json` unmarshalling of error bodies is a parameter
   `unmarshal : String -> Except String ErrorResponsePayload`;
 * `encoding/json` stream decoding in `Do` is a parameter
   `dec : String -> DecodeOutcome A` (returning `eof` on an empty body,
   as the standard library documents);
 * gzip inflation is a parameter `gunzip : String -> Except String String`;
 * `encoding/json` marshalling with `SetEscapeHTML` is modelled directly
   (`encodeJson`), since the HTML-escaping switch is what the code relies on.

Mutation of Go values (header maps on `*http.Request`, the token cache on
the authenticator) is modelled by explicit state passing.  The recursion
in `bareDo` is unbounded in the source, so the embedding takes a fuel
parameter; a result of `none` means the source recursion has not finished
within that fuel bound.
-/

namespace Sysdig

/-- One HTTP header entry; `setHeader` models Go's `Header.Set`,
which replaces any existing value for the key. -/
def setHeader (hs : List (String × String)) (k v : String) :
    List (String × String) :=
  (hs.filter (fun p => p.1 ≠ k)) ++ [(k, v)]

/-- An outgoing request: method, resolved URL, headers and optional body
bytes (`net/http.Request` as far as the pipeline inspects it). -/
structure HttpRequest where
  method : String
  url : String
  headers : List (String × String)
  body : Option String
deriving DecidableEq, Repr

/-- An HTTP response as far as the pipeline inspects it: status code, the
`Content-Encoding` header value, and the body bytes. -/
structure Response where
  statusCode : Nat
  contentEncoding : String
  body : String
deriving DecidableEq, Repr

/-- Sub-error of an API error body (`Error` in client.go). -/
structure SubError where
  message : String
  reason : String
deriving DecidableEq, Repr

/-- The JSON-decodable part of an API error body
(`message` and `errors` fields of `ErrorResponse`). -/
structure ErrorResponsePayload where
  message : String
  errors : List SubError
deriving DecidableEq, Repr

/-- Structured API error produced by `CheckResponse`
(`ErrorResponse` in client.go, keeping the status back-reference). -/
structure ErrorResponse where
  statusCode : Nat
  message : String
  errors : List SubError
deriving DecidableEq, Repr

/-! ### JSON values and the Go `encoding/json` encoder

`NewRequest` serializes bodies with `json.Encoder` after
`SetEscapeHTML(false)`.  `encodeJson escapeHTML v` models the encoder's
output for both switch positions: when `escapeHTML` is true the characters
`<`, `>`, `&` in strings are emitted as `<`, `>`, `&`;
when false they are emitted verbatim. -/

/-- JSON value shape for request bodies. -/
inductive Json where
  | str (s : String)
  | num (n : Int)
  | bool (b : Bool)
  | null
  | arr (xs : List Json)
  | obj (fields : List (String × Json))
deriving Repr

/-- Lowercase hex digit, as Go's encoder emits. -/
def hexDigit (n : Nat) : Char :=
  if n < 10 then Char.ofNat (48 + n) else Char.ofNat (87 + n)

/-- Escape one character of a JSON string the way Go's `encoding/json`
encoder does, parameterized by the `SetEscapeHTML` switch. -/
def escapeChar (escapeHTML : Bool) (c : Char) : String :=
  if c = '"' then "\\\""
  else if c = '\\' then "\\\\"
  else if c = '\n' then "\\n"
  else if c = '\r' then "\\r"
  else if c = '\t' then "\\t"
  else if escapeHTML && (c = '<' || c = '>' || c = '&') then
    "\\u00" ++ String.singleton (hexDigit (c.toNat / 16)) ++
      String.singleton (hexDigit (c.toNat % 16))
  else if c.toNat < 32 then
    "\\u00" ++ String.singleton (hexDigit (c.toNat / 16)) ++
      String.singleton (hexDigit (c.toNat % 16))
  else String.singleton c

/-- Escape a whole JSON string body. -/
def escapeJsonString (escapeHTML : Bool) (s : String) : String :=
  String.join (s.toList.map (escapeChar escapeHTML))

mutual

/-- Go `encoding/json` marshalling of a `Json` value, parameterized by the
`SetEscapeHTML` switch. -/
def encodeJson (escapeHTML : Bool) : Json → String
  | Json.str s => "\"" ++ escapeJsonString escapeHTML s ++ "\""
  | Json.num n => toString n
  | Json.bool b => if b then "true" else "false"
  | Json.null => "null"
  | Json.arr xs => "[" ++ encodeJsonArr escapeHTML xs ++ "]"
  | Json.obj fs => "\x7b" ++ encodeJsonObj escapeHTML fs ++ "\x7d"

/-- Comma-separated encoding of array elements. -/
def encodeJsonArr (escapeHTML : Bool) : List Json → String
  | [] => ""
  | [x] => encodeJson escapeHTML x
  | x :: y :: xs =>
    encodeJson escapeHTML x ++ "," ++ encodeJsonArr escapeHTML (y :: xs)

/-- Comma-separated encoding of object fields. -/
def encodeJsonObj (escapeHTML : Bool) : List (String × Json) → String
  | [] => ""
  | [(k, v)] =>
    "\"" ++ escapeJsonString escapeHTML k ++ "\":" ++ encodeJson escapeHTML v
  | (k, v) :: f :: fs =>
    "\"" ++ escapeJsonString escapeHTML k ++ "\":" ++
      encodeJson escapeHTML v ++ "," ++ encodeJsonObj escapeHTML (f :: fs)

end

/-! ### Request construction (`Client.NewRequest`) -/

/-- Go's `strings.HasSuffix`, modelled on the character list. -/
def hasSuffix (s suf : String) : Bool :=
  List.isSuffixOf suf.data s.data

/-- The part of `url.URL` the pipeline inspects: the `Path` field (used by
the trailing-slash check) and the rendered form `String()`. -/
structure URLModel where
  path : String
  full : String
deriving DecidableEq, Repr

/-- The part of `Client` that `NewRequest` reads. -/
structure ClientModel where
  baseURL : URLModel
  userAgent : String
  shouldCompressResponse : Bool
deriving DecidableEq, Repr

/-- Collaborator model of `net/url` reference resolution
(`c.BaseURL.Parse(urlStr)`); resolution failure on malformed input is not
modelled — none of the verified claims concerns it. -/
def resolveReference (base : URLModel) (urlStr : String) : URLModel :=
  { path := base.path ++ urlStr, full := base.full ++ urlStr }

/-- `Client.NewRequest`: validate the trailing slash of the base URL's
path on every call, resolve the URL, serialize the optional body with
HTML escaping disabled (the encoder appends a newline), and set the
standard headers. -/
def NewRequest (c : ClientModel) (method urlStr : String)
    (body : Option Json) : Except String HttpRequest :=
  if ¬ (hasSuffix c.baseURL.path "/") then
    Except.error ("BaseURL must have a trailing slash, but " ++
      c.baseURL.full ++ " does not")
  else
    let u := resolveReference c.baseURL urlStr
    let buf : Option String := body.map (fun b => encodeJson false b ++ "\n")
    let req : HttpRequest :=
      { method := method, url := u.full, headers := [], body := buf }
    let req :=
      if body.isSome then
        { req with headers := setHeader req.headers "Content-Type" "application/json" }
      else req
    let req := { req with headers := setHeader req.headers "Accept" "application/json" }
    let req :=
      if c.userAgent ≠ "" then
        { req with headers := setHeader req.headers "User-Agent" c.userAgent }
      else req
    let req :=
      if c.shouldCompressResponse then
        { req with headers := setHeader req.headers "Accept-Encoding" "gzip, deflate, sdch" }
      else req
    Except.ok req

/-! ### Error mapping (`Client.CheckResponse`) -/

/-- `Client.CheckResponse`: a status in [200, 299] is a success; otherwise
read the body, try to unmarshal it into the error payload (on unmarshal
failure the message describes the decode failure), restore the body bytes
onto the response, and return the structured error.  Returns the response
(with its possibly-restored body) and the optional error. -/
def CheckResponse (unmarshal : String → Except String ErrorResponsePayload)
    (r : Response) : Response × Option ErrorResponse :=
  if 200 ≤ r.statusCode ∧ r.statusCode ≤ 299 then (r, none)
  else
    let data := r.body
    let payload : ErrorResponsePayload :=
      match unmarshal data with
      | Except.ok p => p
      | Except.error uerr =>
        { message := "error unmarshaling error response: " ++ uerr, errors := [] }
    ({ r with body := data },
     some { statusCode := r.statusCode, message := payload.message,
            errors := payload.errors })

/-! ### The send pipeline (`Client.bareDo` / `Client.Do`) -/

/-- The caller-supplied `context.Context`, as far as the pipeline reads
it: the result of `ctx.Err()` at the moment a transport error is
inspected (`some` = the context is already cancelled or timed out). -/
structure GoContext where
  ctxErr : Option String
deriving DecidableEq, Repr

/-- The configured authenticator as the pipeline sees it: the outcome of
its k-th `Authenticate` call, whether it implements
`authentication.Refreshable`, and the outcome of its k-th `Refresh`. -/
structure AuthEnv where
  authenticateErr : Nat → Option String
  refreshable : Bool
  refreshErr : Nat → Option String

/-- The collaborators of one `bareDo` call: the optional authenticator,
the attempt-indexed HTTP round trip, gzip inflation, and the JSON
unmarshaller used by `CheckResponse`. -/
structure Env where
  auth : Option AuthEnv
  dispatch : Nat → Except String Response
  gunzip : String → Except String String
  unmarshal : String → Except String ErrorResponsePayload

/-- The error cases of `bareDo`/`Do`, in source order. -/
inductive DoErr where
  | nilContext (msg : String)
  | authenticateFailed (msg : String)
  | ctxDone (msg : String)
  | transport (msg : String)
  | refreshFailed (msg : String)
  | gzipFailed (msg : String)
  | api (e : ErrorResponse)
  | decode (msg : String)
deriving DecidableEq, Repr

/-- Counters observing the side effects of one logical call: how many
HTTP attempts were dispatched, how many `Refresh` calls and how many
`Authenticate` calls were made. -/
structure PipeState where
  attempts : Nat
  refreshes : Nat
  authCalls : Nat
deriving DecidableEq, Repr

/-- Result of a `bareDo` run: `none` means the source recursion did not
finish within the fuel bound; `some (resp?, err?)` is Go's
`(*http.Response, error)` pair. -/
abbrev BareDoResult := Option (Option Response × Option DoErr) × PipeState

/-- `isAuthenticationError` in client.go: 403 or 401 (for a non-nil
response, which the model guarantees). -/
def isAuthenticationError (r : Response) : Bool :=
  r.statusCode == 403 || r.statusCode == 401

/-- Substring occurrence on character lists (Go's `strings.Contains`). -/
def hasSubstring (sub : List Char) : List Char → Bool
  | [] => List.isPrefixOf sub []
  | c :: rest => List.isPrefixOf sub (c :: rest) || hasSubstring sub rest

/-- `gzipped` in client.go: `strings.Contains(Content-Encoding, "gzip")`. -/
def gzipped (r : Response) : Bool :=
  hasSubstring "gzip".data r.contentEncoding.data

/-- The authenticate step of `bareDo`: when an authenticator is
configured, invoke it (counting the call); otherwise skip. -/
def authStep (env : Env) (st : PipeState) : Option String × PipeState :=
  match env.auth with
  | none => (none, st)
  | some a =>
    (a.authenticateErr st.authCalls, { st with authCalls := st.authCalls + 1 })

/-- The tail of `bareDo` after the retry check: inflate a gzipped body
(failure is terminal) and run `CheckResponse`, returning the response
together with the optional API error. -/
def finishResponse (env : Env) (resp : Response) (st : PipeState) :
    BareDoResult :=
  let inflated : Except String Response :=
    if gzipped resp then
      match env.gunzip resp.body with
      | Except.error ge => Except.error ge
      | Except.ok b => Except.ok { resp with body := b }
    else Except.ok resp
  match inflated with
  | Except.error ge => (some (none, some (DoErr.gzipFailed ge)), st)
  | Except.ok r =>
    let checked := CheckResponse env.unmarshal r
    (some (some checked.1, checked.2.map DoErr.api), st)

/-- `Client.bareDo`: reject a nil context, authenticate, dispatch
(preferring the context's error when the transport fails under an
already-done context), and on a 401/403 with a refreshable authenticator
refresh and recurse — the source recursion carries no attempt cap, so the
embedding spends one unit of fuel per recursion. -/
def bareDo (env : Env) (ctx : Option GoContext) :
    Nat → HttpRequest → PipeState → BareDoResult
  | 0, _, st => (none, st)
  | fuel + 1, req, st =>
    match ctx with
    | none => (some (none, some (DoErr.nilContext "cannot pass a nil-context")), st)
    | some gctx =>
      match authStep env st with
      | (some e, st1) => (some (none, some (DoErr.authenticateFailed e)), st1)
      | (none, st1) =>
        let st2 := { st1 with attempts := st1.attempts + 1 }
        match env.dispatch st1.attempts with
        | Except.error e =>
          match gctx.ctxErr with
          | some ce => (some (none, some (DoErr.ctxDone ce)), st2)
          | none => (some (none, some (DoErr.transport e)), st2)
        | Except.ok resp =>
          match env.auth, isAuthenticationError resp with
          | some a, true =>
            if a.refreshable then
              let st3 := { st2 with refreshes := st2.refreshes + 1 }
              match a.refreshErr st2.refreshes with
              | some re => (some (none, some (DoErr.refreshFailed re)), st3)
              | none => bareDo env ctx fuel req st3
            else finishResponse env resp st2
          | some _, false => finishResponse env resp st2
          | none, _ => finishResponse env resp st2

/-- Outcome of Go's `json.Decoder.Decode` into a destination of type `A`:
`eof` is `io.EOF` (no value in the stream), `ok` a decoded value, `fail`
any other decode error. -/
inductive DecodeOutcome (A : Type) where
  | eof
  | ok (a : A)
  | fail (msg : String)

/-- The `v` argument of `Client.Do`: nil, an `io.Writer`, or a typed
JSON destination (with its decoder). -/
inductive DoTarget (A : Type) where
  | nilDest
  | writer
  | typed (dec : String → DecodeOutcome A)

/-- Observable outcome of `Client.Do`: the returned response and error,
the decoded destination value (`none` = left at its zero value), the
bytes copied to an `io.Writer` destination, and whether the response body
was closed. -/
structure DoOutcome (A : Type) where
  resp : Option Response
  err : Option DoErr
  dest : Option A
  written : Option String
  bodyClosed : Bool
deriving DecidableEq, Repr

/-- `Client.Do`: run `BareDo`; on error return it (the body is not closed
on that path); on success the deferred close covers every exit of the
decode step — nil destination, writer copy, JSON decode with `io.EOF`
(empty body) swallowed, or a surfaced decode error. -/
def Do {A : Type} (env : Env) (ctx : Option GoContext) (fuel : Nat)
    (req : HttpRequest) (v : DoTarget A) (st : PipeState) :
    Option (DoOutcome A) × PipeState :=
  match bareDo env ctx fuel req st with
  | (none, st') => (none, st')
  | (some (respOpt, some e), st') =>
    (some { resp := respOpt, err := some e, dest := none, written := none,
            bodyClosed := false }, st')
  | (some (none, none), st') =>
    (some { resp := none, err := none, dest := none, written := none,
            bodyClosed := false }, st')
  | (some (some r, none), st') =>
    match v with
    | DoTarget.nilDest =>
      (some { resp := some r, err := none, dest := none, written := none,
              bodyClosed := true }, st')
    | DoTarget.writer =>
      (some { resp := some r, err := none, dest := none,
              written := some r.body, bodyClosed := true }, st')
    | DoTarget.typed dec =>
      match dec r.body with
      | DecodeOutcome.eof =>
        (some { resp := some r, err := none, dest := none, written := none,
                bodyClosed := true }, st')
      | DecodeOutcome.ok a =>
        (some { resp := some r, err := none, dest := some a, written := none,
                bodyClosed := true }, st')
      | DecodeOutcome.fail m =>
        (some { resp := some r, err := some (DoErr.decode m), dest := none,
                written := none, bodyClosed := true }, st')

/-! ### The IBM IAM auto-refreshing authenticator (`ibmiam/iam.go`)

The embedding follows the current `iam.go` — the version the package's
tests compile against, with `WithRefreshBeforeDuration` and the
time-based refresh trigger.  Durations and instants are `Int`
nanoseconds (Go's `time.Duration` / `time.Time`, with the zero time at
0); `time.Since(t)` is `now - t`.  The credential-exchange HTTP call of
`refreshAccessToken` is a collaborator: its outcome is the
`refreshResult` parameter of `Authenticate` (on success the decoded
token; the `lastRefresh = now` update is performed by the embedding as
the source does). -/

namespace Ibmiam

/-- `DefaultIAMEndpoint` in iam.go. -/
def DefaultIAMEndpoint : String := "https://iam.cloud.ibm.com/identity/token"

/-- `DefaultRefreshBeforeExpirationDuration` = 5 minutes, in nanoseconds. -/
def DefaultRefreshBeforeExpirationDuration : Int := 5 * 60 * 1000000000

/-- `tokenValidDuration` = 1 hour, in nanoseconds. -/
def tokenValidDuration : Int := 60 * 60 * 1000000000

/-- `defaultRefreshBefore = tokenValidDuration - DefaultRefreshBeforeExpirationDuration`. -/
def defaultRefreshBefore : Int :=
  tokenValidDuration - DefaultRefreshBeforeExpirationDuration

/-- `iamTokenResponse` in iam.go. -/
structure IamTokenResponse where
  accessToken : String
  refreshToken : String
  uaaAccessToken : String
  uaaRefreshToken : String
  tokenType : String
deriving DecidableEq, Repr

/-- The zero value of `iamTokenResponse`. -/
def IamTokenResponse.zero : IamTokenResponse :=
  { accessToken := "", refreshToken := "", uaaAccessToken := "",
    uaaRefreshToken := "", tokenType := "" }

/-- The `authenticator` struct in iam.go (the `http.Client` field is a
collaborator and is not part of the modelled state). -/
structure AuthenticatorState where
  iamEndpoint : String
  apiKey : String
  ibmInstanceID : String
  sysdigTeamID : String
  refreshBefore : Int
  lastRefresh : Int
  token : IamTokenResponse
deriving DecidableEq, Repr

/-- `AuthenticatorOption` in iam.go. -/
def AuthenticatorOption : Type :=
  AuthenticatorState → Except String AuthenticatorState

/-- `WithRefreshBeforeDuration`: reject a duration greater than the token
validity window, else store `tokenValidDuration - duration`. -/
def WithRefreshBeforeDuration (duration : Int) : AuthenticatorOption :=
  fun a =>
    if duration > tokenValidDuration then
      Except.error ("invalid refresh before duration: must be less than expiration time")
    else Except.ok { a with refreshBefore := tokenValidDuration - duration }

/-- `WithIAMEndpoint`. -/
def WithIAMEndpoint (iamEndpoint : String) : AuthenticatorOption :=
  fun a => Except.ok { a with iamEndpoint := iamEndpoint }

/-- `WithIBMInstanceID`. -/
def WithIBMInstanceID (ibmInstanceID : String) : AuthenticatorOption :=
  fun a => Except.ok { a with ibmInstanceID := ibmInstanceID }

/-- `WithSysdigTeamID`. -/
def WithSysdigTeamID (sysdigTeamID : String) : AuthenticatorOption :=
  fun a => Except.ok { a with sysdigTeamID := sysdigTeamID }

/-- The option loop of the constructor: apply each option in order,
returning the first error (`for _, o := range options`). -/
def applyOptions : List AuthenticatorOption → AuthenticatorState →
    Except String AuthenticatorState
  | [], a => Except.ok a
  | o :: os, a =>
    match o a with
    | Except.error e => Except.error e
    | Except.ok a' => applyOptions os a'

/-- The `Authenticator` constructor: reject a blank API key, start from
the defaults, apply the options in order aborting on the first error. -/
def Authenticator (apiKey : String) (options : List AuthenticatorOption) :
    Except String AuthenticatorState :=
  if apiKey = "" then Except.error "apikey cannot be blank"
  else
    applyOptions options
      { iamEndpoint := DefaultIAMEndpoint, apiKey := apiKey,
        ibmInstanceID := "", sysdigTeamID := "",
        refreshBefore := defaultRefreshBefore, lastRefresh := 0,
        token := IamTokenResponse.zero }

/-- The header-setting tail of `Authenticate`: Authorization (Bearer),
IBMInstanceID, and TeamID only when non-empty. -/
def setAuthHeaders (a : AuthenticatorState) (req : Sysdig.HttpRequest) :
    Sysdig.HttpRequest :=
  let h1 := Sysdig.setHeader req.headers "Authorization" ("Bearer " ++ a.token.accessToken)
  let h2 := Sysdig.setHeader h1 "IBMInstanceID" a.ibmInstanceID
  let req := { req with headers := h2 }
  if a.sysdigTeamID ≠ "" then
    { req with headers := Sysdig.setHeader req.headers "TeamID" a.sysdigTeamID }
  else req

/-- `authenticator.Authenticate`: when `time.Since(lastRefresh)` exceeds
`refreshBefore`, perform the credential-exchange refresh (outcome
`refreshResult`); a refresh failure is returned with the request
untouched; otherwise attach the headers from the (possibly new) token.
Returns the authenticator state and the request after the call. -/
def Authenticate (now : Int)
    (refreshResult : Except String IamTokenResponse)
    (a : AuthenticatorState) (req : Sysdig.HttpRequest) :
    Except String AuthenticatorState × Sysdig.HttpRequest :=
  if now - a.lastRefresh > a.refreshBefore then
    match refreshResult with
    | Except.error e => (Except.error e, req)
    | Except.ok tok =>
      let a' := { a with token := tok, lastRefresh := now }
      (Except.ok a', setAuthHeaders a' req)
  else (Except.ok a, setAuthHeaders a req)

end Ibmiam

/-! ## Claims -/

/-- C4: for every base URL whose path does not end in "/", every
invocation of `NewRequest` — whatever the method, relative path or body —
fails with the configuration error and produces no request; the check is a
function of the client state at call time, so it applies on every call,
not only at construction. -/
theorem c4_missing_trailing_slash_always_fails (c : ClientModel)
    (method urlStr : String) (body : Option Json)
    (h : hasSuffix c.baseURL.path "/" = false) :
    NewRequest c method urlStr body =
      Except.error ("BaseURL must have a trailing slash, but " ++
        c.baseURL.full ++ " does not") := by
  simp [NewRequest, h]

/-- Witness for C4 at a concrete client whose base path lacks the slash. -/
theorem c4_missing_trailing_slash_always_fails_witness :
    NewRequest { baseURL := { path := "/api", full := "https://app.sysdigcloud.com/api" },
                 userAgent := "sysdig-go", shouldCompressResponse := false }
      "GET" "users" none =
      Except.error ("BaseURL must have a trailing slash, but " ++
        "https://app.sysdigcloud.com/api" ++ " does not") :=
  c4_missing_trailing_slash_always_fails _ "GET" "users" none (by decide)

/-- C8: with a nil context, `bareDo` fails immediately with the
context-required error; the counters are untouched (no authenticate call,
no dispatch, no refresh) and the result does not depend on the
environment at all — no network I/O and no authenticator invocation. -/
theorem c8_nil_context_fails_fast (env env' : Env) (req : HttpRequest)
    (st : PipeState) (n : Nat) :
    bareDo env none (n + 1) req st =
      (some (none, some (DoErr.nilContext "cannot pass a nil-context")), st)
    ∧ bareDo env none (n + 1) req st = bareDo env' none (n + 1) req st := by
  constructor <;> simp [bareDo]

/-- C5: when the underlying HTTP client fails, the pipeline returns the
context's own error if the context is already done, and the transport
error verbatim otherwise. -/
theorem c5_transport_error_prefers_context_error (env : Env)
    (g : GoContext) (req : HttpRequest) (st : PipeState) (n : Nat)
    (e : String)
    (hauth : ∀ a, env.auth = some a → a.authenticateErr st.authCalls = none)
    (hdisp : env.dispatch st.attempts = Except.error e) :
    (bareDo env (some g) (n + 1) req st).1 =
      some (none, some (match g.ctxErr with
        | some ce => DoErr.ctxDone ce
        | none => DoErr.transport e)) := by
  cases hA : env.auth with
  | none => cases hc : g.ctxErr <;> simp [bareDo, authStep, hA, hdisp, hc]
  | some a =>
    have ha := hauth a hA
    cases hc : g.ctxErr <;> simp [bareDo, authStep, hA, ha, hdisp, hc]

/-- Witness for C5 at a concrete environment: a failing transport under a
timed-out context yields the context's error. -/
theorem c5_transport_error_prefers_context_error_witness :
    (bareDo
      { auth := none,
        dispatch := fun _ => Except.error "dial tcp: connection refused",
        gunzip := fun s => Except.ok s,
        unmarshal := fun _ => Except.error "unexpected end of JSON input" }
      (some { ctxErr := some "context deadline exceeded" }) 1
      { method := "GET", url := "https://app.sysdigcloud.com/api", headers := [], body := none }
      { attempts := 0, refreshes := 0, authCalls := 0 }).1 =
      some (none, some (DoErr.ctxDone "context deadline exceeded")) :=
  c5_transport_error_prefers_context_error _ _ _ _ 0
    "dial tcp: connection refused" (by intro a h; cases h) rfl

/-- C6: `CheckResponse` returns no error exactly for statuses in
[200, 299]; outside that range it returns the structured error carrying
the decoded message and sub-errors (or the decode-failure description when
unmarshalling fails), and the body bytes on the returned response are the
original ones. -/
theorem c6_check_response_error_mapping
    (u : String → Except String ErrorResponsePayload) (r : Response) :
    ((CheckResponse u r).2 = none ↔ (200 ≤ r.statusCode ∧ r.statusCode ≤ 299))
    ∧ (CheckResponse u r).1.body = r.body
    ∧ (∀ p, ¬ (200 ≤ r.statusCode ∧ r.statusCode ≤ 299) →
        u r.body = Except.ok p →
        (CheckResponse u r).2 =
          some { statusCode := r.statusCode, message := p.message,
                 errors := p.errors })
    ∧ (∀ m, ¬ (200 ≤ r.statusCode ∧ r.statusCode ≤ 299) →
        u r.body = Except.error m →
        (CheckResponse u r).2 =
          some { statusCode := r.statusCode,
                 message := "error unmarshaling error response: " ++ m,
                 errors := [] }) := by
  by_cases h : 200 ≤ r.statusCode ∧ r.statusCode ≤ 299
  · refine ⟨by simp [CheckResponse, h], by simp [CheckResponse, h],
      fun p hne _ => absurd h hne, fun m hne _ => absurd h hne⟩
  · refine ⟨?_, by simp [CheckResponse, h], ?_, ?_⟩
    · simp [CheckResponse, h]
    · intro p _ hu; simp [CheckResponse, h, hu]
    · intro m _ hu; simp [CheckResponse, h, hu]

/-- The spec's concrete example body for C6. -/
def c6Body : String :=
  "\x7b\"message\":\"bad\",\"errors\":[\x7b\"message\":\"m\",\"reason\":\"r\"\x7d]\x7d"

/-- A concrete unmarshaller agreeing with `encoding/json` on the C6
example body. -/
def c6Unmarshal : String → Except String ErrorResponsePayload := fun s =>
  if s = c6Body then
    Except.ok { message := "bad", errors := [{ message := "m", reason := "r" }] }
  else Except.error "invalid character"

/-- Witness for C6: a 500 response with the example JSON body maps to an
error with message "bad" and one sub-error, and the body is preserved. -/
theorem c6_check_response_error_mapping_witness :
    (CheckResponse c6Unmarshal { statusCode := 500, contentEncoding := "", body := c6Body }).2 =
      some { statusCode := 500, message := "bad",
             errors := [{ message := "m", reason := "r" }] }
    ∧ (CheckResponse c6Unmarshal { statusCode := 500, contentEncoding := "", body := c6Body }).1.body =
      c6Body := by
  refine ⟨?_, (c6_check_response_error_mapping c6Unmarshal _).2.1⟩
  exact (c6_check_response_error_mapping c6Unmarshal _).2.2.1
    { message := "bad", errors := [{ message := "m", reason := "r" }] }
    (by decide) (by simp [c6Unmarshal])

/-- C10: when the refresh performed inside `Authenticate` fails (here on
first use: empty cached token, zero last-refresh time), the error is
returned and the request comes back exactly as it went in — no
Authorization, IBMInstanceID or TeamID header has been set. -/
theorem c10_refresh_failure_leaves_request_unchanged (now : Int)
    (e : String) (a : Ibmiam.AuthenticatorState) (req : HttpRequest)
    (_htok : a.token.accessToken = "") (hzero : a.lastRefresh = 0)
    (htrig : a.refreshBefore < now) :
    Ibmiam.Authenticate now (Except.error e) a req = (Except.error e, req) := by
  have h : now - a.lastRefresh > a.refreshBefore := by rw [hzero]; omega
  simp [Ibmiam.Authenticate, h]

/-- Witness for C10 at a freshly constructed authenticator state one
validity window after the zero time. -/
theorem c10_refresh_failure_leaves_request_unchanged_witness :
    Ibmiam.Authenticate Ibmiam.tokenValidDuration
      (Except.error "failed to refresh token: 400")
      { iamEndpoint := Ibmiam.DefaultIAMEndpoint, apiKey := "key",
        ibmInstanceID := "inst", sysdigTeamID := "",
        refreshBefore := Ibmiam.defaultRefreshBefore, lastRefresh := 0,
        token := Ibmiam.IamTokenResponse.zero }
      { method := "GET", url := "https://app.sysdigcloud.com/api", headers := [], body := none } =
      (Except.error "failed to refresh token: 400",
       { method := "GET", url := "https://app.sysdigcloud.com/api", headers := [], body := none }) :=
  c10_refresh_failure_leaves_request_unchanged _ _ _ _ rfl rfl (by decide)

/-- The environment of C1's failing scenario: a server that answers 403
to every dispatch, and a configured refreshable authenticator whose
`Authenticate` and `Refresh` always succeed. -/
def alwaysForbiddenEnv : Env :=
  { auth := some { authenticateErr := fun _ => none, refreshable := true,
                   refreshErr := fun _ => none },
    dispatch := fun _ =>
      Except.ok { statusCode := 403, contentEncoding := "", body := "" },
    gunzip := fun s => Except.ok s,
    unmarshal := fun _ => Except.error "unexpected end of JSON input" }

/-- C1 (divergence witness): under an always-403 server with an
always-succeeding refresh, `bareDo` exhausts every fuel bound — for each
`n` it performs `n` dispatch attempts and `n` refresh invocations and
still has not returned — so the source recursion neither terminates after
a single retry nor caps `Refresh` at one invocation. -/
theorem c1_always_403_refresh_retry_is_unbounded (g : GoContext)
    (req : HttpRequest) :
    ∀ (n : Nat) (st : PipeState),
      (bareDo alwaysForbiddenEnv (some g) n req st).1 = none
      ∧ (bareDo alwaysForbiddenEnv (some g) n req st).2.refreshes =
          st.refreshes + n
      ∧ (bareDo alwaysForbiddenEnv (some g) n req st).2.attempts =
          st.attempts + n := by
  intro n
  induction n with
  | zero => intro st; simp [bareDo]
  | succ k ih =>
    intro st
    have h := ih { attempts := st.attempts + 1, refreshes := st.refreshes + 1,
                   authCalls := st.authCalls + 1 }
    simp only [alwaysForbiddenEnv] at h
    simp only [bareDo, authStep, alwaysForbiddenEnv, isAuthenticationError]
    simp only [beq_self_eq_true, Bool.true_or, if_true]
    refine ⟨h.1, ?_, ?_⟩
    · rw [h.2.1]; show st.refreshes + 1 + k = st.refreshes + (k + 1); omega
    · rw [h.2.2]; show st.attempts + 1 + k = st.attempts + (k + 1); omega

/-- C2: if the first dispatch is 401 or 403 and the next one is a
(non-gzip-encoded) 2xx, a refreshable authenticator whose refresh
succeeds leads to exactly one refresh, exactly one retry (two attempts in
total), and a successful result. -/
theorem c2_single_refresh_retry_then_success (env : Env) (a : AuthEnv)
    (g : GoContext) (req : HttpRequest) (st : PipeState)
    (r0 r1 : Response) (n : Nat)
    (ha : env.auth = some a) (href : a.refreshable = true)
    (hauth : ∀ k, a.authenticateErr k = none)
    (hrefok : a.refreshErr st.refreshes = none)
    (hd0 : env.dispatch st.attempts = Except.ok r0)
    (h403 : r0.statusCode = 401 ∨ r0.statusCode = 403)
    (hd1 : env.dispatch (st.attempts + 1) = Except.ok r1)
    (h2xx : 200 ≤ r1.statusCode ∧ r1.statusCode ≤ 299)
    (hgz : gzipped r1 = false) :
    bareDo env (some g) (n + 1 + 1) req st =
      (some (some r1, none),
       { attempts := st.attempts + 2, refreshes := st.refreshes + 1,
         authCalls := st.authCalls + 2 }) := by
  have hr0auth : isAuthenticationError r0 = true := by
    rcases h403 with h | h <;> simp [isAuthenticationError, h]
  have hr1auth : isAuthenticationError r1 = false := by
    simp only [isAuthenticationError, Bool.or_eq_false_iff, beq_eq_false_iff_ne]
    omega
  have hcheck : CheckResponse env.unmarshal r1 = (r1, none) := by
    simp [CheckResponse, h2xx]
  simp only [bareDo, authStep, ha, hauth, hd0, hr0auth, href, hrefok, hd1,
    hr1auth, finishResponse, hgz, hcheck]
  norm_num
  exact ⟨by rw [hcheck], by rw [hcheck]⟩

/-- C7: once `BareDo` has produced a successful response, the decode step
of `Do` swallows the end-of-input decode outcome of an empty body
(leaving the destination at its zero value), surfaces every other decode
error, and closes the response body on each of these exit paths (and on
the successful-decode path). -/
theorem c7_decode_step_empty_body_and_close (A : Type) (env : Env)
    (ctx : Option GoContext) (fuel : Nat) (req : HttpRequest)
    (st st' : PipeState) (r : Response) (dec : String → DecodeOutcome A)
    (hrun : bareDo env ctx fuel req st = (some (some r, none), st'))
    (hdec : dec "" = DecodeOutcome.eof) :
    (r.body = "" →
      Do env ctx fuel req (DoTarget.typed dec) st =
        (some { resp := some r, err := none, dest := none, written := none,
                bodyClosed := true }, st'))
    ∧ (∀ m, dec r.body = DecodeOutcome.fail m →
      Do env ctx fuel req (DoTarget.typed dec) st =
        (some { resp := some r, err := some (DoErr.decode m), dest := none,
                written := none, bodyClosed := true }, st'))
    ∧ (∀ a, dec r.body = DecodeOutcome.ok a →
      Do env ctx fuel req (DoTarget.typed dec) st =
        (some { resp := some r, err := none, dest := some a, written := none,
                bodyClosed := true }, st')) := by
  refine ⟨?_, ?_, ?_⟩
  · intro hb
    have hd : dec r.body = DecodeOutcome.eof := by rw [hb]; exact hdec
    simp [Do, hrun, hd]
  · intro m hm; simp [Do, hrun, hm]
  · intro a hA; simp [Do, hrun, hA]

/-- A sample request used by concrete witnesses. -/
def sampleRequest : HttpRequest :=
  { method := "GET", url := "https://app.sysdigcloud.com/api/data",
    headers := [], body := none }

/-- The environment of C2's scenario: first dispatch 403, every later
dispatch 200, with an always-succeeding refreshable authenticator. -/
def forbiddenOnceEnv : Env :=
  { auth := some { authenticateErr := fun _ => none, refreshable := true,
                   refreshErr := fun _ => none },
    dispatch := fun i =>
      if i = 0 then Except.ok { statusCode := 403, contentEncoding := "", body := "" }
      else Except.ok { statusCode := 200, contentEncoding := "", body := "" },
    gunzip := fun s => Except.ok s,
    unmarshal := fun _ => Except.error "unexpected end of JSON input" }

/-- Witness for C2 at the mock-server scenario: 403 then 200 gives
success after exactly one refresh and one retry. -/
theorem c2_single_refresh_retry_then_success_witness :
    bareDo forbiddenOnceEnv (some { ctxErr := none }) 2 sampleRequest
      { attempts := 0, refreshes := 0, authCalls := 0 } =
      (some (some { statusCode := 200, contentEncoding := "", body := "" }, none),
       { attempts := 2, refreshes := 1, authCalls := 2 }) :=
  c2_single_refresh_retry_then_success forbiddenOnceEnv
    { authenticateErr := fun _ => none, refreshable := true, refreshErr := fun _ => none }
    { ctxErr := none } sampleRequest
    { attempts := 0, refreshes := 0, authCalls := 0 }
    { statusCode := 403, contentEncoding := "", body := "" }
    { statusCode := 200, contentEncoding := "", body := "" } 0
    rfl rfl (fun _ => rfl) rfl rfl (Or.inr rfl) rfl (by decide) (by decide)

/-- The environment of C7's witness: no authenticator, one 200 response
with an empty body. -/
def plainOkEnv : Env :=
  { auth := none,
    dispatch := fun _ =>
      Except.ok { statusCode := 200, contentEncoding := "", body := "" },
    gunzip := fun s => Except.ok s,
    unmarshal := fun _ => Except.error "unexpected end of JSON input" }

/-- A concrete JSON decoder agreeing with `encoding/json` on the empty
body: end of input before any value. -/
def emptyEofDec : String → DecodeOutcome Nat := fun s =>
  if s = "" then DecodeOutcome.eof else DecodeOutcome.fail "invalid character"

/-- Witness for C7: an empty 200 body decodes to no error, the zero
destination, and a closed body. -/
theorem c7_decode_step_empty_body_and_close_witness :
    Do plainOkEnv (some { ctxErr := none }) 1 sampleRequest
      (DoTarget.typed emptyEofDec) { attempts := 0, refreshes := 0, authCalls := 0 } =
      (some { resp := some { statusCode := 200, contentEncoding := "", body := "" },
              err := none, dest := (none : Option Nat), written := none,
              bodyClosed := true },
       { attempts := 1, refreshes := 0, authCalls := 0 }) :=
  (c7_decode_step_empty_body_and_close Nat plainOkEnv (some { ctxErr := none }) 1
    sampleRequest { attempts := 0, refreshes := 0, authCalls := 0 }
    { attempts := 1, refreshes := 0, authCalls := 0 }
    { statusCode := 200, contentEncoding := "", body := "" }
    emptyEofDec (by decide) rfl).1 rfl

/-- C9: a request built with a body serializes it through the JSON
encoder with HTML escaping disabled (plus the terminating newline the
encoder emits), and that encoder keeps the characters `<`, `>`, `&` of
string fields verbatim — unlike the escaping encoder. -/
theorem c9_body_json_not_html_escaped (c : ClientModel)
    (method urlStr : String) (v : Json)
    (h : hasSuffix c.baseURL.path "/" = true) :
    ((NewRequest c method urlStr (some v)).toOption.map (fun r => r.body)) =
      some (some (encodeJson false v ++ "\n"))
    ∧ escapeChar false '<' = "<"
    ∧ escapeChar false '>' = ">"
    ∧ escapeChar false '&' = "&"
    ∧ encodeJson false (Json.str "a<b>&c") = "\"a<b>&c\""
    ∧ encodeJson true (Json.str "a<b>&c") = "\"a\\u003cb\\u003e\\u0026c\"" := by
  refine ⟨?_, by decide, by decide, by decide, by decide, by decide⟩
  by_cases hu : c.userAgent = "" <;> by_cases hz : c.shouldCompressResponse <;>
    simp [NewRequest, h, hu, hz, Except.toOption]

/-- Witness for C9: a concrete scope-like expression survives encoding
byte-for-byte. -/
theorem c9_body_json_not_html_escaped_witness :
    ((NewRequest { baseURL := { path := "/", full := "https://app.sysdigcloud.com/" },
                   userAgent := "sysdig-go", shouldCompressResponse := false }
        "POST" "api/events" (some (Json.str "agent.tag > 5 && cpu < 2"))).toOption.map
      (fun r => r.body)) =
      some (some (encodeJson false (Json.str "agent.tag > 5 && cpu < 2") ++ "\n")) :=
  (c9_body_json_not_html_escaped _ "POST" "api/events" _ (by decide)).1

/-- C3 (amended): for a non-blank API key, the constructor rejects a
refresh-before duration strictly greater than the token validity window
(a duration equal to the window is accepted), storing
`tokenValidDuration - duration`; `Authenticate` performs the
credential-exchange refresh exactly when the elapsed time since the last
successful refresh exceeds that stored bound (in particular on first use,
when the last-refresh time is the zero time), updating the cached token
and the last-refresh timestamp; otherwise it attaches headers from the
cached token and the refresh outcome is irrelevant. -/
theorem c3_refresh_trigger_and_validation (apiKey : String) (d now : Int)
    (a : Ibmiam.AuthenticatorState) (req : HttpRequest)
    (rr rr' : Except String Ibmiam.IamTokenResponse)
    (tok : Ibmiam.IamTokenResponse) :
    (apiKey ≠ "" → Ibmiam.tokenValidDuration < d →
      Ibmiam.Authenticator apiKey [Ibmiam.WithRefreshBeforeDuration d] =
        Except.error "invalid refresh before duration: must be less than expiration time")
    ∧ (apiKey ≠ "" → d ≤ Ibmiam.tokenValidDuration →
      Ibmiam.Authenticator apiKey [Ibmiam.WithRefreshBeforeDuration d] =
        Except.ok { iamEndpoint := Ibmiam.DefaultIAMEndpoint, apiKey := apiKey,
                    ibmInstanceID := "", sysdigTeamID := "",
                    refreshBefore := Ibmiam.tokenValidDuration - d,
                    lastRefresh := 0, token := Ibmiam.IamTokenResponse.zero })
    ∧ (a.refreshBefore < now - a.lastRefresh →
      Ibmiam.Authenticate now (Except.ok tok) a req =
        (Except.ok { a with token := tok, lastRefresh := now },
         Ibmiam.setAuthHeaders { a with token := tok, lastRefresh := now } req))
    ∧ (now - a.lastRefresh ≤ a.refreshBefore →
      Ibmiam.Authenticate now rr a req = (Except.ok a, Ibmiam.setAuthHeaders a req)
      ∧ Ibmiam.Authenticate now rr a req = Ibmiam.Authenticate now rr' a req) := by
  refine ⟨?_, ?_, ?_, ?_⟩
  · intro hk hd
    have hgt : d > Ibmiam.tokenValidDuration := hd
    simp [Ibmiam.Authenticator, hk, Ibmiam.applyOptions,
      Ibmiam.WithRefreshBeforeDuration, hgt]
  · intro hk hd
    have hngt : ¬ (d > Ibmiam.tokenValidDuration) := by omega
    simp [Ibmiam.Authenticator, hk, Ibmiam.applyOptions,
      Ibmiam.WithRefreshBeforeDuration, hngt]
  · intro htrig
    have hgt : now - a.lastRefresh > a.refreshBefore := htrig
    simp [Ibmiam.Authenticate, hgt]
  · intro hle
    have hngt : ¬ (now - a.lastRefresh > a.refreshBefore) := by omega
    exact ⟨by simp [Ibmiam.Authenticate, hngt], by simp [Ibmiam.Authenticate, hngt]⟩

/-- A freshly refreshed token for the C3 witness. -/
def sampleToken : Ibmiam.IamTokenResponse :=
  { accessToken := "bar", refreshToken := "", uaaAccessToken := "",
    uaaRefreshToken := "", tokenType := "Bearer" }

/-- A first-use authenticator state for the C3 witness. -/
def sampleAuthState : Ibmiam.AuthenticatorState :=
  { iamEndpoint := Ibmiam.DefaultIAMEndpoint, apiKey := "key",
    ibmInstanceID := "inst", sysdigTeamID := "",
    refreshBefore := Ibmiam.defaultRefreshBefore, lastRefresh := 0,
    token := Ibmiam.IamTokenResponse.zero }

/-- `sampleAuthState` after a successful refresh at the one-hour mark. -/
def refreshedAuthState : Ibmiam.AuthenticatorState :=
  { sampleAuthState with token := sampleToken,
                         lastRefresh := Ibmiam.tokenValidDuration }

/-- Witness for C3 (amended) at concrete inputs: over-long duration
rejected, the default refresh-before duration accepted with the stored
bound, a first-use authenticate one hour after the zero time refreshes,
and a just-refreshed authenticate does not. -/
theorem c3_refresh_trigger_and_validation_witness :
    Ibmiam.Authenticator "key"
      [Ibmiam.WithRefreshBeforeDuration (Ibmiam.tokenValidDuration + 1)] =
      Except.error "invalid refresh before duration: must be less than expiration time"
    ∧ Ibmiam.Authenticator "key"
      [Ibmiam.WithRefreshBeforeDuration Ibmiam.DefaultRefreshBeforeExpirationDuration] =
      Except.ok { iamEndpoint := Ibmiam.DefaultIAMEndpoint, apiKey := "key",
                  ibmInstanceID := "", sysdigTeamID := "",
                  refreshBefore := Ibmiam.tokenValidDuration -
                    Ibmiam.DefaultRefreshBeforeExpirationDuration,
                  lastRefresh := 0, token := Ibmiam.IamTokenResponse.zero }
    ∧ Ibmiam.Authenticate Ibmiam.tokenValidDuration (Except.ok sampleToken)
        sampleAuthState sampleRequest =
      (Except.ok refreshedAuthState,
       Ibmiam.setAuthHeaders refreshedAuthState sampleRequest)
    ∧ Ibmiam.Authenticate 0 (Except.ok sampleToken) sampleAuthState sampleRequest =
      (Except.ok sampleAuthState,
       Ibmiam.setAuthHeaders sampleAuthState sampleRequest) :=
  ⟨(c3_refresh_trigger_and_validation "key" (Ibmiam.tokenValidDuration + 1) 0
      sampleAuthState sampleRequest (Except.ok sampleToken) (Except.ok sampleToken)
      sampleToken).1 (by decide) (by decide),
   (c3_refresh_trigger_and_validation "key"
      Ibmiam.DefaultRefreshBeforeExpirationDuration 0
      sampleAuthState sampleRequest (Except.ok sampleToken) (Except.ok sampleToken)
      sampleToken).2.1 (by decide) (by decide),
   (c3_refresh_trigger_and_validation "key" 0 Ibmiam.tokenValidDuration
      sampleAuthState sampleRequest (Except.ok sampleToken) (Except.ok sampleToken)
      sampleToken).2.2.1 (by decide),
   ((c3_refresh_trigger_and_validation "key" 0 0
      sampleAuthState sampleRequest (Except.ok sampleToken) (Except.ok sampleToken)
      sampleToken).2.2.2 (by decide)).1⟩

/-- C3 counterexample: construction with a refresh-before duration
exactly equal to the token validity window succeeds, although that
duration is not less than the validity window — the constructor only
rejects durations strictly greater than the window. -/
theorem c3_threshold_validation_counterexample :
    Ibmiam.Authenticator "key"
      [Ibmiam.WithRefreshBeforeDuration Ibmiam.tokenValidDuration] =
      Except.ok { iamEndpoint := Ibmiam.DefaultIAMEndpoint, apiKey := "key",
                  ibmInstanceID := "", sysdigTeamID := "",
                  refreshBefore := 0, lastRefresh := 0,
                  token := Ibmiam.IamTokenResponse.zero }
    ∧ ¬ (Ibmiam.tokenValidDuration < Ibmiam.tokenValidDuration) := by
  constructor
  · rfl
  · omega

end Sysdig
